import Mathlib

/-!
# Verification of the MindGarden spatial slot-packing and camera subsystem

This file gives a shallow embedding, over `ℚ`, of the slot/coordinate/camera
logic of the MindGarden repository:

* `src/hooks/useIslandLayout.ts` — slot registry, coordinate mapper, slot
  allocator (`positionToGlobalIndex`, `getIslandOrigin`,
  `thoughtToWorldPosition`, `getOccupiedIndices`, `getNextAvailableSlot`,
  `slotToPosition`, `getWorldSize`);
* the camera hook bundled with it (`useKonvaCamera`: `handleWheel`,
  `handlePointerMove`);
* `src/App.tsx` — the inline 12-slot allocator `getNextAvailablePosition`
  with its own `ISLAND_SLOTS` table;
* `src/components/GardenCanvas.tsx` — the initial camera-fit computation;
* the island-count derivation of the scroll-based `GardenCanvas` variant
  (`totalIslands = max(1, maxIslandIndex + 1)`).

JavaScript numbers are modelled as exact rationals.  `Math.floor` is `⌊·⌋`
(`Int.floor`), and the JavaScript remainder operator `%` (truncated
division, sign of the dividend) is modelled by `jsMod` below.  A JavaScript
`Set<number>` is modelled by a `List ℤ` used only through membership, and
`findIndex` (which returns `-1` on failure) by `List.findIdx?` mapped to an
integer result.
-/

namespace MindGarden

/-- JavaScript truncation toward zero, as used by the `%` operator. -/
def jsTrunc (q : ℚ) : ℤ := if 0 ≤ q then ⌊q⌋ else ⌈q⌉

/-- The JavaScript remainder `a % b`: `a - b * trunc (a / b)`. -/
def jsMod (a b : ℚ) : ℚ := a - b * jsTrunc (a / b)

/-- A percentage position `{x, y}` as stored on a thought record
(`src/types.ts`: `Position`). -/
structure Position where
  x : ℚ
  y : ℚ
deriving DecidableEq

/-- The only field of a thought record read by the layout code is
`position` (`src/hooks/useIslandLayout.ts` and `src/App.tsx` access
thoughts exclusively through `t.position`). -/
structure ThoughtCard where
  position : Position
deriving DecidableEq

/-! ## Slot registry (`src/hooks/useIslandLayout.ts` lines 5–37)

In the source, 11 of the 12 slot entries of `ISLAND_SLOTS` are commented
out: only `{ x: 15, y: 55 }` is live, so `SLOTS_PER_ISLAND` evaluates to
`1` (the trailing `// 12` comment in the source is stale). -/

def ISLAND_SLOTS : List Position := [⟨15, 55⟩]

def SLOTS_PER_ISLAND : ℕ := ISLAND_SLOTS.length

def ISLAND_WIDTH : ℚ := 900
def ISLAND_HEIGHT : ℚ := 600
def ISLAND_GAP : ℚ := 60
def ISLANDS_PER_ROW : ℤ := 2

/-- Crop region of the source SVG. -/
structure SVGCrop where
  x : ℚ
  y : ℚ
  width : ℚ
  height : ℚ

def SVG_CROP : SVGCrop := { x := 30, y := 160, width := 1115, height := 610 }

def SVG_FULL_W : ℚ := 1254
def SVG_FULL_H : ℚ := 836

/-- `SlotInfo` as returned by `getNextAvailableSlot`. -/
structure SlotInfo where
  islandIndex : ℕ
  slotIndex : ℕ
  globalIndex : ℕ
  worldX : ℚ
  worldY : ℚ
deriving DecidableEq

/-- The slot-matching predicate used by `positionToGlobalIndex` and
`getNextAvailablePosition`:
`Math.abs(slot.x - localX) < 1 && Math.abs(slot.y - localY) < 1`. -/
def slotMatch (slot : Position) (localX localY : ℚ) : Bool :=
  decide (|slot.x - localX| < 1) && decide (|slot.y - localY| < 1)

/-- `Array.prototype.findIndex`: index of the first match, `-1` if none. -/
def findSlotIndex (slots : List Position) (localX localY : ℚ) : ℤ :=
  match slots.findIdx? (fun slot => slotMatch slot localX localY) with
  | some i => (i : ℤ)
  | none => -1

/-- `positionToGlobalIndex` (`useIslandLayout.ts` lines 59–70): converts a
stored percentage position to a global slot index, `-1` if the position
matches no known slot. -/
def positionToGlobalIndex (pos : Position) : ℤ :=
  let islandIndex : ℤ := ⌊pos.x / 100⌋
  let localX : ℚ := jsMod pos.x 100
  let localY : ℚ := pos.y
  let slotIndex : ℤ := findSlotIndex ISLAND_SLOTS localX localY
  if slotIndex = -1 then -1 else islandIndex * (SLOTS_PER_ISLAND : ℤ) + slotIndex

/-- `getIslandOrigin` (`useIslandLayout.ts` lines 75–82): world-pixel
position of an island's top-left corner.  `islandIndex % ISLANDS_PER_ROW`
is the JavaScript remainder (`Int.tmod` on integer inputs) and
`Math.floor(islandIndex / ISLANDS_PER_ROW)` is the floor of the exact
division. -/
def getIslandOrigin (islandIndex : ℤ) : ℚ × ℚ :=
  let col : ℤ := Int.tmod islandIndex ISLANDS_PER_ROW
  let row : ℤ := ⌊(islandIndex : ℚ) / (ISLANDS_PER_ROW : ℚ)⌋
  ((col : ℚ) * (ISLAND_WIDTH + ISLAND_GAP), (row : ℚ) * (ISLAND_HEIGHT + ISLAND_GAP))

/-- `thoughtToWorldPosition` (`useIslandLayout.ts` lines 93–109):
percentage position → absolute world-pixel coordinates, remapping through
the SVG crop region. -/
def thoughtToWorldPosition (thought : ThoughtCard) : ℚ × ℚ :=
  let islandIndex : ℤ := ⌊thought.position.x / 100⌋
  let localX : ℚ := jsMod thought.position.x 100
  let localY : ℚ := thought.position.y
  let srcPixelX : ℚ := localX / 100 * SVG_FULL_W
  let srcPixelY : ℚ := localY / 100 * SVG_FULL_H
  let cropFracX : ℚ := (srcPixelX - SVG_CROP.x) / SVG_CROP.width
  let cropFracY : ℚ := (srcPixelY - SVG_CROP.y) / SVG_CROP.height
  let origin := getIslandOrigin islandIndex
  (origin.1 + cropFracX * ISLAND_WIDTH, origin.2 + cropFracY * ISLAND_HEIGHT)

/-- `getOccupiedIndices` (`useIslandLayout.ts` lines 114–121): the set of
occupied global slot indices, derived from current thoughts; indices `-1`
(no slot match) are not added.  The JavaScript `Set<number>` is modelled by
a list used only through membership. -/
def getOccupiedIndices (thoughts : List ThoughtCard) : List ℤ :=
  (thoughts.map (fun t => positionToGlobalIndex t.position)).filter (fun idx => idx ≠ -1)

/-- The loop body of `getNextAvailableSlot` (`useIslandLayout.ts` lines
136–149) for a free global index `i`. -/
def mkSlotInfo (i : ℕ) : SlotInfo :=
  let islandIndex : ℕ := i / SLOTS_PER_ISLAND
  let slotIndex : ℕ := i % SLOTS_PER_ISLAND
  let slot : Position := ISLAND_SLOTS.getD slotIndex ⟨0, 0⟩
  let origin := getIslandOrigin (islandIndex : ℤ)
  let srcPxX : ℚ := slot.x / 100 * SVG_FULL_W
  let srcPxY : ℚ := slot.y / 100 * SVG_FULL_H
  { islandIndex := islandIndex
    slotIndex := slotIndex
    globalIndex := i
    worldX := origin.1 + ((srcPxX - SVG_CROP.x) / SVG_CROP.width) * ISLAND_WIDTH
    worldY := origin.2 + ((srcPxY - SVG_CROP.y) / SVG_CROP.height) * ISLAND_HEIGHT }

/-- `getNextAvailableSlot` (`useIslandLayout.ts` lines 127–154): scans
`for (let i = 0; i < totalSlots; i++)` and returns the first index not in
the occupied set, `null` (here `none`) if all are occupied. -/
def getNextAvailableSlot (thoughts : List ThoughtCard) (islandCount : ℕ) :
    Option SlotInfo :=
  let occupied := getOccupiedIndices thoughts
  let totalSlots := islandCount * SLOTS_PER_ISLAND
  ((List.range totalSlots).find? (fun (i : ℕ) => !(decide ((i : ℤ) ∈ occupied)))).map mkSlotInfo

/-- `slotToPosition` (`useIslandLayout.ts` lines 159–165): converts a
`SlotInfo` back to the percentage-based stored position. -/
def slotToPosition (slot : SlotInfo) : Position :=
  let localSlot : Position := ISLAND_SLOTS.getD slot.slotIndex ⟨0, 0⟩
  { x := (slot.islandIndex : ℚ) * 100 + localSlot.x, y := localSlot.y }

/-- `getWorldSize` (`useIslandLayout.ts` lines 170–178): total world size
for all islands in the grid layout. -/
def getWorldSize (islandCount : ℤ) : ℚ × ℚ :=
  if islandCount ≤ 0 then (ISLAND_WIDTH, ISLAND_HEIGHT)
  else
    let cols : ℤ := min islandCount ISLANDS_PER_ROW
    let rows : ℤ := ⌈(islandCount : ℚ) / (ISLANDS_PER_ROW : ℚ)⌉
    ((cols : ℚ) * ISLAND_WIDTH + ((cols : ℚ) - 1) * ISLAND_GAP,
     (rows : ℚ) * ISLAND_HEIGHT + ((rows : ℚ) - 1) * ISLAND_GAP)

/-! ## The inline allocator of `src/App.tsx` (lines 70–130)

`App.tsx` carries its own 12-entry `ISLAND_SLOTS` table and an inline
allocator `getNextAvailablePosition` that scans global indices upward
without an island-count bound (`while (occupiedIndices.has(i)) i++`). -/

def APP_ISLAND_SLOTS : List Position :=
  [⟨15, 55⟩, ⟨35, 40⟩, ⟨50, 45⟩, ⟨25, 65⟩, ⟨45, 60⟩, ⟨20, 80⟩, ⟨40, 75⟩,
   ⟨75, 50⟩, ⟨90, 60⟩, ⟨65, 70⟩, ⟨85, 75⟩, ⟨75, 85⟩]

def APP_SLOTS_PER_ISLAND : ℕ := APP_ISLAND_SLOTS.length

/-- The `currentThoughts.forEach` loop of `getNextAvailablePosition`
(`App.tsx` lines 95–113): a global index is added exactly when the reverse
slot lookup succeeds (`slotIndex !== -1`). -/
def appOccupiedIndices (thoughts : List ThoughtCard) : List ℤ :=
  thoughts.filterMap (fun t =>
    let islandIndex : ℤ := ⌊t.position.x / 100⌋
    let localX : ℚ := jsMod t.position.x 100
    let localY : ℚ := t.position.y
    (APP_ISLAND_SLOTS.findIdx? (fun slot => slotMatch slot localX localY)).map
      (fun slotIndex => islandIndex * (APP_SLOTS_PER_ISLAND : ℤ) + (slotIndex : ℤ)))

/-- The `let i = 0; while (occupiedIndices.has(i)) i++` loop of
`getNextAvailablePosition` (`App.tsx` lines 116–119).  A list of length
`n` can contain at most `n` distinct values, so the first free natural
number is at most `n` and a bounded ascending scan over `0..n` is
exhaustive (`exists_unoccupied_le_length` below shows the `getD` fallback
is dead code). -/
def firstFreeIndex (occupied : List ℤ) : ℕ :=
  ((List.range (occupied.length + 1)).find?
    (fun (i : ℕ) => !(decide ((i : ℤ) ∈ occupied)))).getD 0

/-- `getNextAvailablePosition` (`App.tsx` lines 88–130): stored position of
the lowest free global slot. -/
def getNextAvailablePosition (currentThoughts : List ThoughtCard) : Position :=
  let occupiedIndices := appOccupiedIndices currentThoughts
  let i : ℕ := firstFreeIndex occupiedIndices
  let islandIndex : ℕ := i / APP_SLOTS_PER_ISLAND
  let localSlotIndex : ℕ := i % APP_SLOTS_PER_ISLAND
  let slot : Position := APP_ISLAND_SLOTS.getD localSlotIndex ⟨0, 0⟩
  { x := (islandIndex : ℚ) * 100 + slot.x, y := slot.y }

/-- Sequential planting: starting from the empty garden, repeatedly place a
new thought at `getNextAvailablePosition` of the current list and commit it
before the next allocation (the flow of `handlePlant` in `App.tsx`). -/
def plantN : ℕ → List ThoughtCard
  | 0 => []
  | n + 1 =>
    let prev := plantN n
    prev ++ [⟨getNextAvailablePosition prev⟩]

/-- Island-count derivation of the scroll-based `GardenCanvas` variant:
`maxIslandIndex = thoughts.reduce((max, t) => Math.max(max, Math.floor(t.position.x / 100)), 0)`. -/
def maxIslandIndex (thoughts : List ThoughtCard) : ℤ :=
  thoughts.foldl (fun m t => max m ⌊t.position.x / 100⌋) 0

/-- `totalIslands = Math.max(1, maxIslandIndex + 1)` from the same
component. -/
def totalIslands (thoughts : List ThoughtCard) : ℤ :=
  max 1 (maxIslandIndex thoughts + 1)

/-! ## Camera controller (`useKonvaCamera`, bundled with
`src/hooks/useIslandLayout.ts`, lines 215–340 of the file) -/

/-- Camera state `{scale, x, y}`. -/
structure GardenCamera where
  scale : ℚ
  x : ℚ
  y : ℚ
deriving DecidableEq

/-- `useKonvaCamera()` with no argument initialises the camera to
`{scale: 1, x: 0, y: 0}`. -/
def defaultCamera : GardenCamera := { scale := 1, x := 0, y := 0 }

def MIN_SCALE : ℚ := 15 / 100
def MAX_SCALE : ℚ := 2
def ZOOM_SENSITIVITY : ℚ := 108 / 100

/-- A wheel event: `deltaY` plus the pointer position reported by the
stage. -/
structure WheelData where
  deltaY : ℚ
  pointerX : ℚ
  pointerY : ℚ

/-- The unclamped scale computed by `handleWheel`:
`direction > 0 ? oldScale * ZOOM_SENSITIVITY : oldScale / ZOOM_SENSITIVITY`
with `direction = e.evt.deltaY < 0 ? 1 : -1`. -/
def rawWheelScale (cam : GardenCamera) (e : WheelData) : ℚ :=
  let direction : ℤ := if e.deltaY < 0 then 1 else -1
  if direction > 0 then cam.scale * ZOOM_SENSITIVITY else cam.scale / ZOOM_SENSITIVITY

/-- `handleWheel` (lines 239–267): cursor-anchored wheel zoom.  The stage's
`scaleX()/x()/y()` mirror the camera state. -/
def handleWheel (cam : GardenCamera) (e : WheelData) : GardenCamera :=
  let oldScale := cam.scale
  let newScale : ℚ := min MAX_SCALE (max MIN_SCALE (rawWheelScale cam e))
  let mousePointToX : ℚ := (e.pointerX - cam.x) / oldScale
  let mousePointToY : ℚ := (e.pointerY - cam.y) / oldScale
  { scale := newScale
    x := e.pointerX - mousePointToX * newScale
    y := e.pointerY - mousePointToY * newScale }

/-- A pointer event's client coordinates. -/
structure PointerData where
  clientX : ℚ
  clientY : ℚ

/-- The pan refs of `useKonvaCamera`: `isPanning` and `panStart`. -/
structure PanState where
  isPanning : Bool
  panStartX : ℚ
  panStartY : ℚ

/-- `handlePointerMove` (lines 281–289): while panning, set the camera
offsets from the drag delta, spreading the previous state (`...prev`);
otherwise return early. -/
def handlePointerMove (pan : PanState) (cam : GardenCamera) (e : PointerData) :
    GardenCamera :=
  if pan.isPanning then
    { cam with x := e.clientX - pan.panStartX, y := e.clientY - pan.panStartY }
  else cam

/-! ## Initial camera fit (`src/components/GardenCanvas.tsx` lines 114–131) -/

/-- Viewport dimensions as reported by `useStageSize`. -/
structure StageSize where
  width : ℚ
  height : ℚ

/-- The one-time camera-fit effect of `GardenCanvas` (lines 115–131):
`fitScale = Math.min(w / (worldWidth + 100), h / (worldHeight + 100), 1)`,
clamped below by `0.15`, then centred offsets; the resulting camera is
passed to `setCamera` unconditionally. -/
def initialCameraFit (stageSize : StageSize) (worldWidth worldHeight : ℚ) :
    GardenCamera :=
  let fitScale : ℚ :=
    min (stageSize.width / (worldWidth + 100))
      (min (stageSize.height / (worldHeight + 100)) 1)
  let scale : ℚ := max fitScale (15 / 100)
  { scale := scale
    x := (stageSize.width - worldWidth * scale) / 2
    y := (stageSize.height - worldHeight * scale) / 2 }

/-! ## Helper lemmas -/

/-- `jsTrunc` agrees with the floor on nonnegative arguments. -/
theorem jsTrunc_of_nonneg {q : ℚ} (h : 0 ≤ q) : jsTrunc q = ⌊q⌋ := by
  simp [jsTrunc, h]

/-- Splitting an encoded coordinate `i*100 + c` with `0 ≤ c < 100`:
the floor of the division by 100 recovers the island index. -/
theorem floor_encode_div (i : ℕ) (c : ℚ) (h0 : 0 ≤ c) (h1 : c < 100) :
    ⌊((i : ℚ) * 100 + c) / 100⌋ = (i : ℤ) := by
  have hsplit : ((i : ℚ) * 100 + c) / 100 = c / 100 + ((i : ℤ) : ℚ) := by
    push_cast
    ring
  rw [hsplit, Int.floor_add_int]
  have hfrac : ⌊c / 100⌋ = 0 := by
    rw [Int.floor_eq_zero_iff]
    constructor
    · positivity
    · rw [div_lt_one (by norm_num)]
      linarith
  omega

/-- Splitting an encoded coordinate `i*100 + c` with `0 ≤ c < 100`:
the JavaScript remainder by 100 recovers the local coordinate. -/
theorem jsMod_encode (i : ℕ) (c : ℚ) (h0 : 0 ≤ c) (h1 : c < 100) :
    jsMod ((i : ℚ) * 100 + c) 100 = c := by
  have hq : (0 : ℚ) ≤ ((i : ℚ) * 100 + c) / 100 := by positivity
  rw [jsMod, jsTrunc_of_nonneg hq, floor_encode_div i c h0 h1]
  push_cast
  ring

/-- A list of `n` integers cannot contain every one of the `n + 1`
naturals `0 .. n`, so the `while (occupied.has(i)) i++` loop of
`getNextAvailablePosition` always stops at some `i ≤ n`: the bounded scan
of `firstFreeIndex` is exhaustive and its `getD` fallback is dead code. -/
theorem exists_unoccupied_le_length (occupied : List ℤ) :
    ∃ i ≤ occupied.length, (i : ℤ) ∉ occupied := by
  by_contra hall
  push_neg at hall
  have hsub : (Finset.range (occupied.length + 1)).image (fun i : ℕ => (i : ℤ)) ⊆
      occupied.toFinset := by
    intro x hx
    rcases Finset.mem_image.mp hx with ⟨i, hi, rfl⟩
    exact List.mem_toFinset.mpr (hall i (Nat.lt_succ_iff.mp (Finset.mem_range.mp hi)))
  have hcard := Finset.card_le_card hsub
  rw [Finset.card_image_of_injective _ Nat.cast_injective, Finset.card_range] at hcard
  have hle := occupied.toFinset_card_le
  omega

/-- `find?` over `List.range n` returns `none` iff the predicate fails on
all of `0 .. n-1`. -/
theorem find_range_eq_none (p : ℕ → Bool) (n : ℕ) :
    (List.range n).find? p = none ↔ ∀ i < n, p i = false := by
  rw [List.find?_eq_none]
  constructor
  · intro h i hi
    simpa using h i (List.mem_range.mpr hi)
  · intro h x hx
    simp [h x (List.mem_range.mp hx)]

/-- `find?` over `List.range n` finds the least index satisfying the
predicate: the result is in range, satisfies the predicate, and every
smaller index fails it. -/
theorem find_range_eq_some (p : ℕ → Bool) {n k : ℕ}
    (h : (List.range n).find? p = some k) :
    k < n ∧ p k = true ∧ ∀ j < k, p j = false := by
  induction n with
  | zero => simp [List.range_zero] at h
  | succ m ih =>
    rw [List.range_succ, List.find?_append] at h
    cases hfm : (List.range m).find? p with
    | some k2 =>
      rw [hfm] at h
      simp only [Option.or_some] at h
      obtain ⟨hlt, hp, hmin⟩ := ih (by rw [hfm, h])
      exact ⟨Nat.lt_succ_of_lt hlt, hp, hmin⟩
    | none =>
      rw [hfm] at h
      simp only [Option.none_or] at h
      have hall : ∀ i < m, p i = false := (find_range_eq_none p m).mp hfm
      rcases List.find?_cons_eq_some.mp h with ⟨hpm, rfl⟩ | ⟨hpm, hk⟩
      · exact ⟨Nat.lt_succ_self m, hpm, hall⟩
      · simp at hk

/-- Evaluation of the reverse lookup on a slot-0 encoded position: the
single live slot `{x: 15, y: 55}` is matched exactly. -/
theorem positionToGlobalIndex_encode (i : ℕ) :
    positionToGlobalIndex ⟨(i : ℚ) * 100 + 15, 55⟩ = (i : ℤ) := by
  have hfl : ⌊((i : ℚ) * 100 + 15) / 100⌋ = (i : ℤ) :=
    floor_encode_div i 15 (by norm_num) (by norm_num)
  have hmod : jsMod ((i : ℚ) * 100 + 15) 100 = 15 :=
    jsMod_encode i 15 (by norm_num) (by norm_num)
  have hfind : findSlotIndex ISLAND_SLOTS 15 55 = 0 := by with_unfolding_all rfl
  simp only [positionToGlobalIndex, hmod, hfl, hfind]
  norm_num [SLOTS_PER_ISLAND, ISLAND_SLOTS]

/-- C1.  Round-trip of the coordinate encoding: for every island index
`i ≥ 0` and local slot index `s < SLOTS_PER_ISLAND`, encoding the slot as
a stored percentage position (`slotToPosition`) and reverse-mapping it
(`positionToGlobalIndex`) yields the global index
`i * SLOTS_PER_ISLAND + s`. -/
theorem positionToGlobalIndex_slotToPosition_roundtrip (info : SlotInfo)
    (hs : info.slotIndex < SLOTS_PER_ISLAND) :
    positionToGlobalIndex (slotToPosition info) =
      (info.islandIndex : ℤ) * (SLOTS_PER_ISLAND : ℤ) + (info.slotIndex : ℤ) := by
  have hone : SLOTS_PER_ISLAND = 1 := rfl
  have hs0 : info.slotIndex = 0 := by omega
  have hpos : slotToPosition info =
      ⟨(info.islandIndex : ℚ) * 100 + 15, 55⟩ := by
    simp [slotToPosition, hs0, ISLAND_SLOTS]
  rw [hpos, positionToGlobalIndex_encode, hone, hs0]
  push_cast
  ring

/-- Witness for C1 at island index 3, slot 0. -/
theorem positionToGlobalIndex_slotToPosition_roundtrip_witness :
    (⟨3, 0, 3, 0, 0⟩ : SlotInfo).slotIndex < SLOTS_PER_ISLAND ∧
      positionToGlobalIndex (slotToPosition ⟨3, 0, 3, 0, 0⟩) = 3 := by
  refine ⟨by decide, ?_⟩
  have h := positionToGlobalIndex_slotToPosition_roundtrip ⟨3, 0, 3, 0, 0⟩ (by decide)
  simpa [SLOTS_PER_ISLAND, ISLAND_SLOTS] using h

/-- C5.  Legacy-position tolerance: a stored position whose
`(x % 100, y)` pair matches no configured slot within the `< 1` epsilon in
each axis reverse-maps to the sentinel `-1`, and such positions are never
present in the occupied index set (they never block slot reuse). -/
theorem legacy_position_excluded (pos : Position)
    (h : ∀ slot ∈ ISLAND_SLOTS,
      ¬(|slot.x - jsMod pos.x 100| < 1 ∧ |slot.y - pos.y| < 1)) :
    positionToGlobalIndex pos = -1 ∧
      (∀ thoughts : List ThoughtCard,
        positionToGlobalIndex pos ∉ getOccupiedIndices thoughts) ∧
      ∀ thoughts : List ThoughtCard,
        getOccupiedIndices (thoughts ++ [⟨pos⟩]) = getOccupiedIndices thoughts := by
  have hnone : ISLAND_SLOTS.findIdx?
      (fun slot => slotMatch slot (jsMod pos.x 100) pos.y) = none := by
    rw [List.findIdx?_eq_none_iff]
    intro slot hslot
    rw [Bool.eq_false_iff]
    intro htrue
    exact h slot hslot (by simpa [slotMatch] using htrue)
  have hfind : findSlotIndex ISLAND_SLOTS (jsMod pos.x 100) pos.y = -1 := by
    simp [findSlotIndex, hnone]
  have hidx : positionToGlobalIndex pos = -1 := by
    simp [positionToGlobalIndex, hfind]
  refine ⟨hidx, ?_, ?_⟩
  · intro thoughts hmem
    rw [hidx] at hmem
    rcases List.mem_filter.mp hmem with ⟨-, hne⟩
    simp at hne
  · intro thoughts
    simp [getOccupiedIndices, hidx]

/-- Witness for C5 at the free-form legacy position `(50, 50)`. -/
theorem legacy_position_excluded_witness :
    (∀ slot ∈ ISLAND_SLOTS,
      ¬(|slot.x - jsMod (50 : ℚ) 100| < 1 ∧ |slot.y - (50 : ℚ)| < 1)) ∧
      positionToGlobalIndex ⟨50, 50⟩ = -1 ∧
      positionToGlobalIndex ⟨50, 50⟩ ∉ getOccupiedIndices [⟨⟨50, 50⟩⟩] := by
  have hhyp : ∀ slot ∈ ISLAND_SLOTS,
      ¬(|slot.x - jsMod (50 : ℚ) 100| < 1 ∧ |slot.y - (50 : ℚ)| < 1) :=
    of_decide_eq_true (by with_unfolding_all rfl)
  obtain ⟨h1, h2, -⟩ := legacy_position_excluded ⟨50, 50⟩ hhyp
  exact ⟨hhyp, h1, h2 [⟨⟨50, 50⟩⟩]⟩

/-- C10.  Panning preserves zoom: while panning is active, the
pointer-move handler changes only the camera offsets; the scale field is
unchanged. -/
theorem handlePointerMove_preserves_scale (pan : PanState) (cam : GardenCamera)
    (e : PointerData) (h : pan.isPanning = true) :
    (handlePointerMove pan cam e).scale = cam.scale := by
  simp [handlePointerMove, h]

/-- Witness for C10 on a concrete panning state. -/
theorem handlePointerMove_preserves_scale_witness :
    (PanState.isPanning ⟨true, 3, 4⟩ = true) ∧
      (handlePointerMove ⟨true, 3, 4⟩ ⟨1, 10, 20⟩ ⟨7, 9⟩).scale = (1 : ℚ) :=
  ⟨rfl, handlePointerMove_preserves_scale ⟨true, 3, 4⟩ ⟨1, 10, 20⟩ ⟨7, 9⟩ rfl⟩

/-- C2.  `getNextAvailableSlot` scans global indices
`0 .. islandCount*SLOTS_PER_ISLAND - 1` in ascending order and returns the
first index not in the occupied set (every smaller index is occupied), with
the island/local decomposition of that index; it returns `none` exactly
when every index in the range is occupied. -/
theorem getNextAvailableSlot_first_free (thoughts : List ThoughtCard)
    (islandCount : ℕ) (hn : 1 ≤ islandCount) :
    (∀ info, getNextAvailableSlot thoughts islandCount = some info →
      info.globalIndex < islandCount * SLOTS_PER_ISLAND ∧
      (info.globalIndex : ℤ) ∉ getOccupiedIndices thoughts ∧
      (∀ j < info.globalIndex, (j : ℤ) ∈ getOccupiedIndices thoughts) ∧
      info.islandIndex = info.globalIndex / SLOTS_PER_ISLAND ∧
      info.slotIndex = info.globalIndex % SLOTS_PER_ISLAND) ∧
    (getNextAvailableSlot thoughts islandCount = none ↔
      ∀ i < islandCount * SLOTS_PER_ISLAND,
        (i : ℤ) ∈ getOccupiedIndices thoughts) := by
  constructor
  · intro info hsome
    unfold getNextAvailableSlot at hsome
    rcases Option.map_eq_some'.mp hsome with ⟨k, hfind, hinfo⟩
    obtain ⟨hlt, hp, hmin⟩ := find_range_eq_some _ hfind
    subst hinfo
    refine ⟨by simpa [mkSlotInfo] using hlt, ?_, ?_,
      by simp [mkSlotInfo], by simp [mkSlotInfo]⟩
    · simpa [mkSlotInfo] using hp
    · intro j hj
      have hfalse := hmin j (by simpa [mkSlotInfo] using hj)
      simpa using hfalse
  · unfold getNextAvailableSlot
    rw [Option.map_eq_none', find_range_eq_none]
    constructor
    · intro h i hi
      simpa using h i hi
    · intro h i hi
      simpa using h i hi

/-- Witness for C2: on the empty garden with one island, the allocator's
exhaustion characterisation holds. -/
theorem getNextAvailableSlot_first_free_witness :
    (1 : ℕ) ≤ 1 ∧
      (getNextAvailableSlot [] 1 = none ↔
        ∀ i < 1 * SLOTS_PER_ISLAND, (i : ℤ) ∈ getOccupiedIndices []) :=
  ⟨le_refl 1, (getNextAvailableSlot_first_free [] 1 (le_refl 1)).2⟩

/-- C3 counterexample: the claim quantifies over *every* thought list, but
a list can already occupy slots on the island that the retry adds.  With
`SLOTS_PER_ISLAND = 1`, thoughts stored at `(15, 55)` (island 0, slot 0)
and `(115, 55)` (island 1, slot 0) make `getNextAvailableSlot` return
`none` for islandCount 1 *and* for islandCount 2. -/
theorem expansion_retry_counterexample :
    getNextAvailableSlot [⟨⟨15, 55⟩⟩, ⟨⟨115, 55⟩⟩] 1 = none ∧
      getNextAvailableSlot [⟨⟨15, 55⟩⟩, ⟨⟨115, 55⟩⟩] 2 = none := by
  constructor <;> with_unfolding_all rfl

/-- C3 amended.  Expansion protocol: if every occupied index lies within
the current `n` islands (as is the case when `n` is the derived island
count) and `getNextAvailableSlot` returns `none` for `n` islands, then the
retry with `n + 1` islands returns a non-`none` slot. -/
theorem expansion_retry (thoughts : List ThoughtCard) (n : ℕ)
    (hocc : ∀ idx ∈ getOccupiedIndices thoughts,
      idx < ((n * SLOTS_PER_ISLAND : ℕ) : ℤ))
    (hnull : getNextAvailableSlot thoughts n = none) :
    ∃ info, getNextAvailableSlot thoughts (n + 1) = some info := by
  have hfree : ((n * SLOTS_PER_ISLAND : ℕ) : ℤ) ∉ getOccupiedIndices thoughts := by
    intro hmem
    exact absurd (hocc _ hmem) (lt_irrefl _)
  cases hres : getNextAvailableSlot thoughts (n + 1) with
  | some info => exact ⟨info, rfl⟩
  | none =>
    exfalso
    unfold getNextAvailableSlot at hres
    rw [Option.map_eq_none', find_range_eq_none] at hres
    have hpos : 0 < SLOTS_PER_ISLAND := by decide
    have hlt : n * SLOTS_PER_ISLAND < (n + 1) * SLOTS_PER_ISLAND :=
      Nat.mul_lt_mul_of_lt_of_le (Nat.lt_succ_self n) (le_refl SLOTS_PER_ISLAND) hpos
    have := hres (n * SLOTS_PER_ISLAND) hlt
    simp at this
    exact hfree this

/-- Witness for C3's amended theorem: one thought on island 0, island
count 1 exhausted, retry with 2 islands succeeds. -/
theorem expansion_retry_witness :
    ∃ info, getNextAvailableSlot [⟨⟨15, 55⟩⟩] 2 = some info :=
  expansion_retry [⟨⟨15, 55⟩⟩] 1
    (of_decide_eq_true (by with_unfolding_all rfl))
    (by with_unfolding_all rfl)

/-- Evaluation of `thoughtToWorldPosition` on a slot-0 encoded position:
the decode recovers island index `k` and local coordinates `(15, 55)`, and
the crop remap is applied to them. -/
theorem thoughtToWorldPosition_encode (k : ℕ) :
    thoughtToWorldPosition ⟨⟨(k : ℚ) * 100 + 15, 55⟩⟩ =
      ((getIslandOrigin (k : ℤ)).1 +
          (15 / 100 * SVG_FULL_W - SVG_CROP.x) / SVG_CROP.width * ISLAND_WIDTH,
        (getIslandOrigin (k : ℤ)).2 +
          (55 / 100 * SVG_FULL_H - SVG_CROP.y) / SVG_CROP.height * ISLAND_HEIGHT) := by
  have hfl : ⌊((k : ℚ) * 100 + 15) / 100⌋ = (k : ℤ) :=
    floor_encode_div k 15 (by norm_num) (by norm_num)
  have hmod : jsMod ((k : ℚ) * 100 + 15) 100 = 15 :=
    jsMod_encode k 15 (by norm_num) (by norm_num)
  simp only [thoughtToWorldPosition, hfl, hmod]

/-- C9.  The two world-position computations agree: for every slot
returned by `getNextAvailableSlot`, its inline `worldX`/`worldY` equal
`thoughtToWorldPosition` of a thought whose stored position is
`slotToPosition` of that slot. -/
theorem slot_world_position_agreement (thoughts : List ThoughtCard)
    (islandCount : ℕ) (info : SlotInfo)
    (h : getNextAvailableSlot thoughts islandCount = some info) :
    thoughtToWorldPosition ⟨slotToPosition info⟩ = (info.worldX, info.worldY) := by
  unfold getNextAvailableSlot at h
  rcases Option.map_eq_some'.mp h with ⟨k, -, hinfo⟩
  subst hinfo
  have hslot : slotToPosition (mkSlotInfo k) = ⟨(k : ℚ) * 100 + 15, 55⟩ := by
    simp [slotToPosition, mkSlotInfo, SLOTS_PER_ISLAND, ISLAND_SLOTS,
      Nat.mod_one, Nat.div_one]
  rw [hslot, thoughtToWorldPosition_encode]
  simp [mkSlotInfo, SLOTS_PER_ISLAND, ISLAND_SLOTS, Nat.mod_one, Nat.div_one]

/-- Witness for C9: the slot handed out on the empty garden. -/
theorem slot_world_position_agreement_witness :
    getNextAvailableSlot [] 1 = some ⟨0, 0, 0, 28458 / 223, 17988 / 61⟩ ∧
      thoughtToWorldPosition ⟨slotToPosition ⟨0, 0, 0, 28458 / 223, 17988 / 61⟩⟩ =
        (28458 / 223, 17988 / 61) := by
  have hsome : getNextAvailableSlot [] 1 =
      some ⟨0, 0, 0, 28458 / 223, 17988 / 61⟩ := by with_unfolding_all rfl
  exact ⟨hsome, slot_world_position_agreement [] 1 _ hsome⟩

/-- C6.  Zoom anchoring: whenever the wheel step is not clamped at either
scale bound, the world coordinate that the pre-event transform
(`screen = world * scale + offset`) maps to the pointer is mapped back to
the pointer by the post-event transform — exactly, in this exact-rational
model. -/
theorem handleWheel_zoom_anchoring (cam : GardenCamera) (e : WheelData)
    (hmin : MIN_SCALE ≤ rawWheelScale cam e)
    (hmax : rawWheelScale cam e ≤ MAX_SCALE)
    (wx wy : ℚ)
    (hx : wx * cam.scale + cam.x = e.pointerX)
    (hy : wy * cam.scale + cam.y = e.pointerY) :
    wx * (handleWheel cam e).scale + (handleWheel cam e).x = e.pointerX ∧
      wy * (handleWheel cam e).scale + (handleWheel cam e).y = e.pointerY := by
  have hZpos : (0 : ℚ) < ZOOM_SENSITIVITY := by norm_num [ZOOM_SENSITIVITY]
  have hMINpos : (0 : ℚ) < MIN_SCALE := by norm_num [MIN_SCALE]
  have hrawpos : 0 < rawWheelScale cam e := lt_of_lt_of_le hMINpos hmin
  have hpos : 0 < cam.scale := by
    by_cases hd : e.deltaY < 0
    · have hr : rawWheelScale cam e = cam.scale * ZOOM_SENSITIVITY := by
        simp [rawWheelScale, hd]
      rw [hr] at hrawpos
      rcases mul_pos_iff.mp hrawpos with ⟨h1, -⟩ | ⟨-, h2⟩
      · exact h1
      · linarith
    · have hr : rawWheelScale cam e = cam.scale / ZOOM_SENSITIVITY := by
        simp [rawWheelScale, hd]
      rw [hr] at hrawpos
      rcases div_pos_iff.mp hrawpos with ⟨h1, -⟩ | ⟨-, h2⟩
      · exact h1
      · linarith
  have hne : cam.scale ≠ 0 := ne_of_gt hpos
  have hclamp : min MAX_SCALE (max MIN_SCALE (rawWheelScale cam e)) =
      rawWheelScale cam e := by
    rw [max_eq_right hmin, min_eq_right hmax]
  have hxw : (e.pointerX - cam.x) / cam.scale = wx := by
    rw [← hx, add_sub_cancel_right, mul_div_cancel_right₀ _ hne]
  have hyw : (e.pointerY - cam.y) / cam.scale = wy := by
    rw [← hy, add_sub_cancel_right, mul_div_cancel_right₀ _ hne]
  have hw : handleWheel cam e =
      { scale := rawWheelScale cam e,
        x := e.pointerX - wx * rawWheelScale cam e,
        y := e.pointerY - wy * rawWheelScale cam e } := by
    simp [handleWheel, hclamp, hxw, hyw]
  rw [hw]
  constructor <;> ring

/-- Witness for C6: zoom-in at pointer `(100, 50)` from the default
camera; the world point `(100, 50)` stays under the pointer. -/
theorem handleWheel_zoom_anchoring_witness :
    MIN_SCALE ≤ rawWheelScale ⟨1, 0, 0⟩ ⟨-1, 100, 50⟩ ∧
      rawWheelScale ⟨1, 0, 0⟩ ⟨-1, 100, 50⟩ ≤ MAX_SCALE ∧
      (100 * (handleWheel ⟨1, 0, 0⟩ ⟨-1, 100, 50⟩).scale +
          (handleWheel ⟨1, 0, 0⟩ ⟨-1, 100, 50⟩).x = 100 ∧
        50 * (handleWheel ⟨1, 0, 0⟩ ⟨-1, 100, 50⟩).scale +
          (handleWheel ⟨1, 0, 0⟩ ⟨-1, 100, 50⟩).y = 50) := by
  have h1 : MIN_SCALE ≤ rawWheelScale ⟨1, 0, 0⟩ ⟨-1, 100, 50⟩ := by
    norm_num [rawWheelScale, MIN_SCALE, ZOOM_SENSITIVITY]
  have h2 : rawWheelScale ⟨1, 0, 0⟩ ⟨-1, 100, 50⟩ ≤ MAX_SCALE := by
    norm_num [rawWheelScale, MAX_SCALE, ZOOM_SENSITIVITY]
  exact ⟨h1, h2,
    handleWheel_zoom_anchoring ⟨1, 0, 0⟩ ⟨-1, 100, 50⟩ h1 h2 100 50
      (by norm_num) (by norm_num)⟩

/-- One wheel step always lands in `[MIN_SCALE, MAX_SCALE]`, whatever the
previous scale was. -/
theorem handleWheel_scale_step (cam : GardenCamera) (e : WheelData) :
    MIN_SCALE ≤ (handleWheel cam e).scale ∧
      (handleWheel cam e).scale ≤ MAX_SCALE := by
  constructor
  · show MIN_SCALE ≤ min MAX_SCALE (max MIN_SCALE (rawWheelScale cam e))
    exact le_min (by norm_num [MIN_SCALE, MAX_SCALE]) (le_max_left _ _)
  · show min MAX_SCALE (max MIN_SCALE (rawWheelScale cam e)) ≤ MAX_SCALE
    exact min_le_left _ _

/-- C7.  Scale clamping invariant: starting from a scale in
`[MIN_SCALE, MAX_SCALE]`, any finite sequence of wheel events (in either
direction) keeps the scale within `[0.15, 2.0]`.  Since the event list is
arbitrary, this bounds the scale after *each* event of a longer
sequence. -/
theorem handleWheel_scale_clamped (cam : GardenCamera) (es : List WheelData)
    (h0 : MIN_SCALE ≤ cam.scale) (h1 : cam.scale ≤ MAX_SCALE) :
    (15 / 100 : ℚ) ≤ (es.foldl handleWheel cam).scale ∧
      (es.foldl handleWheel cam).scale ≤ 2 := by
  induction es generalizing cam with
  | nil => exact ⟨h0, h1⟩
  | cons e es ih =>
    obtain ⟨hl, hr⟩ := handleWheel_scale_step cam e
    exact ih (handleWheel cam e) hl hr

/-- Witness for C7: a single zoom-out event from the default camera. -/
theorem handleWheel_scale_clamped_witness :
    MIN_SCALE ≤ (1 : ℚ) ∧ (1 : ℚ) ≤ MAX_SCALE ∧
      ((15 / 100 : ℚ) ≤ (List.foldl handleWheel ⟨1, 0, 0⟩ [⟨1, 0, 0⟩]).scale ∧
        (List.foldl handleWheel ⟨1, 0, 0⟩ [⟨1, 0, 0⟩]).scale ≤ 2) := by
  have h0 : MIN_SCALE ≤ (GardenCamera.mk 1 0 0).scale := by norm_num [MIN_SCALE]
  have h1 : (GardenCamera.mk 1 0 0).scale ≤ MAX_SCALE := by norm_num [MAX_SCALE]
  exact ⟨h0, h1, handleWheel_scale_clamped ⟨1, 0, 0⟩ [⟨1, 0, 0⟩] h0 h1⟩

/-- C8 counterexample: with a zero-sized viewport and the world of one
island (`getWorldSize 1 = (900, 600)`), the fit computation is *not* a
no-op: it produces a camera different from the untouched default
`{scale: 1, x: 0, y: 0}` (namely `{scale: 0.15, x: -67.5, y: -45}`). -/
theorem initialCameraFit_zero_viewport_counterexample :
    initialCameraFit ⟨0, 0⟩ (getWorldSize 1).1 (getWorldSize 1).2 ≠ defaultCamera ∧
      initialCameraFit ⟨0, 0⟩ (getWorldSize 1).1 (getWorldSize 1).2 =
        { scale := 3 / 20, x := -135 / 2, y := -45 } := by
  constructor
  · exact of_decide_eq_true (by with_unfolding_all rfl)
  · with_unfolding_all rfl

/-- C8 amended.  With zero viewport dimensions the fit computation is not
deferred: it runs and overwrites the camera; but it produces no infinite
or NaN value — all divisions are by `worldSize + 100`, never by a viewport
dimension, so the scale is simply clamped to the minimum `0.15` and the
offsets are the finite values below. -/
theorem initialCameraFit_zero_viewport_amended (ss : StageSize) (ww wh : ℚ)
    (hw : ss.width = 0) (hh : ss.height = 0) :
    initialCameraFit ss ww wh =
      { scale := 3 / 20, x := -(ww * (3 / 20)) / 2, y := -(wh * (3 / 20)) / 2 } := by
  simp only [initialCameraFit, hw, hh, zero_div, zero_sub]
  norm_num

/-- Witness for C8's amended theorem at the one-island world size. -/
theorem initialCameraFit_zero_viewport_amended_witness :
    (StageSize.width ⟨0, 0⟩ = 0) ∧ (StageSize.height ⟨0, 0⟩ = 0) ∧
      initialCameraFit ⟨0, 0⟩ 900 600 =
        { scale := 3 / 20, x := -(900 * (3 / 20)) / 2, y := -(600 * (3 / 20)) / 2 } :=
  ⟨rfl, rfl, initialCameraFit_zero_viewport_amended ⟨0, 0⟩ 900 600 rfl rfl⟩

/-- C4.  Sequential-planting scenario against the 12-slot configuration of
`App.tsx`: planting 13 thoughts one at a time (committing each before the
next allocation) gives thoughts 1–12 exactly the 12 configured slot
coordinates of island 0 in table order (pairwise distinct, all with
island index 0), puts thought 13 at `(115, 55)` — island 1, local slot
0 — and the derived island count becomes 2. -/
theorem sequential_planting_scenario :
    (plantN 13).map (fun t => t.position) = APP_ISLAND_SLOTS ++ [⟨115, 55⟩] ∧
      APP_ISLAND_SLOTS.Pairwise (fun p q => p ≠ q) ∧
      (∀ p ∈ APP_ISLAND_SLOTS, ⌊p.x / 100⌋ = 0) ∧
      (⌊(115 : ℚ) / 100⌋ = 1 ∧
        (115 : ℚ) = 1 * 100 + (APP_ISLAND_SLOTS.getD 0 ⟨0, 0⟩).x ∧
        (55 : ℚ) = (APP_ISLAND_SLOTS.getD 0 ⟨0, 0⟩).y) ∧
      totalIslands (plantN 13) = 2 := by
  refine ⟨?_, ?_, ?_, ⟨?_, ?_, ?_⟩, ?_⟩
  · with_unfolding_all rfl
  · exact of_decide_eq_true (by with_unfolding_all rfl)
  · exact of_decide_eq_true (by with_unfolding_all rfl)
  · with_unfolding_all rfl
  · with_unfolding_all rfl
  · with_unfolding_all rfl
  · with_unfolding_all rfl

end MindGarden
